import Mathlib

/-!
# SaharaSprout irrigation controller (`hello_world_main.c`)

A shallow embedding of the control core of `sahara-sprout-ai-test/main/hello_world_main.c`:
the moisture reader, the snapshot builder, the rule-based decision, the pump/valve
sequencer, the status LED and one iteration of the main loop.

Modelling conventions.

* C `int` is a mathematical integer wrapped to 32 bits after every arithmetic operation
  (`wrap32`); `TickType_t` is a natural number reduced modulo `2 ^ 32`.
* C `float` values are the rationals they denote; every float operation rounds its exact
  result to IEEE-754 binary32 with round-to-nearest, ties-to-even (`f32`). A floating
  literal such as `0.85` is a `double` constant converted to `float` on assignment (`lit`).
  Infinities and NaN are not represented: no operation of the program produces one from
  finite operands.
* The global variables, the GPIO output levels, the function-local statics of
  `update_status_led`, the issued hardware commands and the emitted log lines are fields of
  an explicit `State`. Values read from the environment (ADC result, tick counter) are
  explicit arguments.
-/

namespace SaharaSprout

/-! ## Machine arithmetic -/

/-- Two's-complement wrap of an integer to the range of a 32-bit C `int`. -/
def wrap32 (x : ℤ) : ℤ := (x + 2147483648) % 4294967296 - 2147483648

/-- Resolution of the ADC channel, `ADC_BITWIDTH_12` (line 151). -/
def ADC_BITWIDTH : ℕ := 12

/-- The raw values a conversion of the ADC at that resolution delivers: `0 .. 4095`. -/
def isAdcReading (raw : ℤ) : Prop := 0 ≤ raw ∧ raw < 2 ^ ADC_BITWIDTH

instance (raw : ℤ) : Decidable (isAdcReading raw) := by
  unfold isAdcReading; infer_instance

/-- Reduction of a natural number to `uint32_t` (`TickType_t`). -/
def wrapU32 (x : ℕ) : ℕ := x % 4294967296

/-- Round a rational to the nearest integer, ties to the even neighbour. -/
def rne (q : ℚ) : ℤ :=
  if q - ⌊q⌋ < 1 / 2 then ⌊q⌋
  else if 1 / 2 < q - ⌊q⌋ then ⌊q⌋ + 1
  else if ⌊q⌋ % 2 = 0 then ⌊q⌋ else ⌊q⌋ + 1

/-- Exponent of the unit in the last place of `q` in a binary format with `p` significand
bits and minimum normal exponent `emin` (subnormals share the spacing of `emin`). -/
def ulpExp (p : ℕ) (emin : ℤ) (q : ℚ) : ℤ := max (Int.log 2 |q|) emin - ((p : ℤ) - 1)

/-- Round-to-nearest-even into the binary format with `p` significand bits. -/
def roundBin (p : ℕ) (emin : ℤ) (q : ℚ) : ℚ :=
  (rne (q / 2 ^ ulpExp p emin q) : ℚ) * 2 ^ ulpExp p emin q

/-- Rounding to IEEE-754 binary32, the C `float` of the target. -/
def f32 (q : ℚ) : ℚ := roundBin 24 (-126) q

/-- Rounding to IEEE-754 binary64, the C `double`. -/
def f64 (q : ℚ) : ℚ := roundBin 53 (-1022) q

/-- Value stored in a `float` object by assigning the decimal `double` literal `q`. -/
def lit (q : ℚ) : ℚ := f32 (f64 q)

/-- A rational is a finite binary32 value. -/
def isF32 (q : ℚ) : Prop := f32 q = q ∧ |q| < 2 ^ 128

instance (q : ℚ) : Decidable (isF32 q) := by
  unfold isF32; infer_instance

/-! ## Constants (`#define`s) -/

/-- Pump relay pin, `GPIO_NUM_15`. -/
def PUMP_PIN : ℕ := 15
/-- Solenoid valve relay pin, `GPIO_NUM_14`. -/
def SOLENOID_PIN : ℕ := 14
/-- Built-in LED pin, `GPIO_NUM_2`. -/
def STATUS_LED : ℕ := 2
/-- Start irrigation below 40%. -/
def DRY_THRESHOLD : ℤ := 40
/-- Stop irrigation above 60%. -/
def WET_THRESHOLD : ℤ := 60
/-- Sensor reading in air. -/
def AIR_VALUE : ℤ := 800
/-- Sensor reading in water. -/
def WATER_VALUE : ℤ := 375

/-! ## Data model -/

/-- The struct `sensor_data_t`; every field is a C `float`. -/
structure sensor_data_t where
  soil_moisture : ℚ
  soil_temperature : ℚ
  air_humidity : ℚ
  time_of_day : ℚ
  days_since_rain : ℚ
  last_irrigation_hours : ℚ
  deriving DecidableEq

/-- The struct `irrigation_decision_t`. -/
structure irrigation_decision_t where
  irrigation_duration : ℚ
  urgency_score : ℚ
  confidence : ℚ
  should_irrigate : Bool
  deriving DecidableEq

/-- Hardware commands issued by the program: `gpio_set_level(pin, level)` and
`vTaskDelay(pdMS_TO_TICKS(ms))`. -/
inductive HwCmd where
  | gpio (pin : ℕ) (level : Bool)
  | delay (ms : ℕ)
  deriving DecidableEq

/-- The `ESP_LOGI` lines of the modelled functions, with their arguments. -/
inductive LogLine where
  | status (moisture : ℚ) (irrigate : Bool) (confidence : ℚ)
  | starting
  | pump_on
  | valve_open
  | stopping
  | valve_closed
  | pump_off
  | completed (seconds : ℕ)
  deriving DecidableEq

/-- Program state: the globals `is_irrigating`, `irrigation_start_time`,
`last_sensor_check`; the output levels of the three GPIO pins; the statics `led_state` and
`counter` of `update_status_led`; the hardware commands and log lines emitted so far. -/
structure State where
  is_irrigating : Bool
  irrigation_start_time : ℕ
  last_sensor_check : ℕ
  pump : Bool
  valve : Bool
  led : Bool
  led_state : Bool
  counter : ℤ
  hw : List HwCmd
  log : List LogLine
  deriving DecidableEq

/-- State on entry to the main loop: globals at their initialisers, all outputs driven to 0
(lines 116-118 and the end of the relay self-test), statics at their initialisers, and an
empty record of commands and log lines. -/
def power_on : State :=
  { is_irrigating := false, irrigation_start_time := 0, last_sensor_check := 0,
    pump := false, valve := false, led := false, led_state := false, counter := 0,
    hw := [], log := [] }

/-- Result of `adc_oneshot_read(adc1_handle, ADC_CHANNEL, &raw_value)`: the returned
`esp_err_t` and the value written to `raw_value`. -/
structure AdcRead where
  rc : ℤ
  raw : ℤ
  deriving DecidableEq

/-- A process abort raised by `ESP_ERROR_CHECK`: the error code and the state at the
abort. -/
structure Abort where
  rc : ℤ
  state : State
  deriving DecidableEq

/-! ## Primitive effects -/

/-- The call `gpio_set_level(pin, level)`: drives the pin and records the command. -/
def gpio_set_level (pin : ℕ) (level : Bool) (s : State) : State :=
  { s with
    pump := if pin = PUMP_PIN then level else s.pump
    valve := if pin = SOLENOID_PIN then level else s.valve
    led := if pin = STATUS_LED then level else s.led
    hw := s.hw ++ [HwCmd.gpio pin level] }

/-- The call `vTaskDelay(pdMS_TO_TICKS(ms))`: a blocking wait, recorded as a command. -/
def vTaskDelay (ms : ℕ) (s : State) : State :=
  { s with hw := s.hw ++ [HwCmd.delay ms] }

/-- The call `ESP_LOGI(TAG, ...)`: appends a line to the log. -/
def ESP_LOGI (l : LogLine) (s : State) : State :=
  { s with log := s.log ++ [l] }

/-- The check `ESP_ERROR_CHECK(rc)`: continues when `rc` is `ESP_OK` (0), aborts
otherwise. -/
def ESP_ERROR_CHECK (rc : ℤ) : Except ℤ Unit :=
  if rc = 0 then .ok () else .error rc

/-! ## The program -/

/-- Function `read_moisture_percentage`, lines 208-220. -/
def read_moisture_percentage (adc : AdcRead) : Except ℤ ℤ :=
  match ESP_ERROR_CHECK adc.rc with
  | .error e => .error e
  | .ok () =>
    let raw_value := adc.raw
    let percentage :=
      Int.tdiv (wrap32 (wrap32 (AIR_VALUE - raw_value) * 100))
        (wrap32 (AIR_VALUE - WATER_VALUE))
    let percentage := if percentage < 0 then 0 else percentage
    let percentage := if percentage > 100 then 100 else percentage
    .ok percentage

/-- Function `collect_sensor_data`, lines 188-206. `tickMs` is `portTICK_PERIOD_MS` and `now`
the value returned by `xTaskGetTickCount()`. -/
def collect_sensor_data (tickMs : ℕ) (adc : AdcRead) (now : ℕ) (s : State) :
    Except ℤ sensor_data_t :=
  match read_moisture_percentage adc with
  | .error e => .error e
  | .ok percentage =>
    .ok { soil_moisture := f32 (percentage : ℚ)
          soil_temperature := lit 25
          air_humidity := lit 60
          time_of_day := f32 ((wrapU32 (now * tickMs) / 1000 / 3600 % 24 : ℕ) : ℚ)
          days_since_rain := lit 2
          last_irrigation_hours := if s.is_irrigating then lit 0 else lit 1 }

/-- Function `make_irrigation_decision`, lines 222-248. The global `is_irrigating` is read
from `s`. -/
def make_irrigation_decision (s : State) (sensors : sensor_data_t) : irrigation_decision_t :=
  if sensors.soil_moisture < (DRY_THRESHOLD : ℚ) then
    { should_irrigate := true
      irrigation_duration := lit 5
      urgency_score :=
        f32 (f32 ((DRY_THRESHOLD : ℚ) - sensors.soil_moisture) / (DRY_THRESHOLD : ℚ))
      confidence := lit (85 / 100) }
  else if sensors.soil_moisture > (WET_THRESHOLD : ℚ) then
    { should_irrigate := false
      irrigation_duration := lit 0
      urgency_score := lit 0
      confidence := lit (90 / 100) }
  else
    { should_irrigate := s.is_irrigating
      irrigation_duration := if s.is_irrigating then lit 2 else lit 0
      urgency_score := lit (3 / 10)
      confidence := lit (70 / 100) }

/-- Function `start_irrigation`, lines 250-268. `now` is the value returned by
`xTaskGetTickCount()`. -/
def start_irrigation (now : ℕ) (s : State) : State :=
  if s.is_irrigating then s
  else
    let s := ESP_LOGI .starting s
    let s := gpio_set_level PUMP_PIN true s
    let s := ESP_LOGI .pump_on s
    let s := vTaskDelay 2000 s
    let s := gpio_set_level SOLENOID_PIN true s
    let s := ESP_LOGI .valve_open s
    { s with is_irrigating := true, irrigation_start_time := now }

/-- Function `stop_irrigation`, lines 270-291. `tickMs` is `portTICK_PERIOD_MS` and `now` the
value returned by `xTaskGetTickCount()`. -/
def stop_irrigation (tickMs : ℕ) (now : ℕ) (s : State) : State :=
  if !s.is_irrigating then s
  else
    let s := ESP_LOGI .stopping s
    let s := gpio_set_level SOLENOID_PIN false s
    let s := ESP_LOGI .valve_closed s
    let s := vTaskDelay 1000 s
    let s := gpio_set_level PUMP_PIN false s
    let s := ESP_LOGI .pump_off s
    let irrigation_duration := wrapU32 (now + 4294967296 - wrapU32 s.irrigation_start_time)
    let s := ESP_LOGI (.completed (wrapU32 (irrigation_duration * tickMs) / 1000)) s
    { s with is_irrigating := false }

/-- Function `update_status_led`, lines 293-306. -/
def update_status_led (s : State) : State :=
  if s.is_irrigating then
    let s := { s with led_state := !s.led_state }
    gpio_set_level STATUS_LED s.led_state s
  else
    let s := { s with counter := wrap32 (s.counter + 1) }
    gpio_set_level STATUS_LED (decide (Int.tmod s.counter 10 < 2)) s

/-- One iteration of the `while (1)` loop of `app_main`, lines 160-185. `nowCollect` is the
tick count read by `collect_sensor_data`, `nowAct` the one read by `start_irrigation` or
`stop_irrigation`. The iteration aborts when the ADC read fails. -/
def app_main_iteration (tickMs : ℕ) (adc : AdcRead) (nowCollect nowAct : ℕ) (s : State) :
    Except Abort State :=
  match collect_sensor_data tickMs adc nowCollect s with
  | .error e => .error { rc := e, state := s }
  | .ok sensors =>
    let decision := make_irrigation_decision s sensors
    let s := ESP_LOGI
      (.status sensors.soil_moisture decision.should_irrigate decision.confidence) s
    let s :=
      if decision.should_irrigate && !s.is_irrigating then start_irrigation nowAct s
      else if !decision.should_irrigate && s.is_irrigating then stop_irrigation tickMs nowAct s
      else s
    let s := update_status_led s
    .ok (vTaskDelay 5000 s)

/-- The calls a client of the sequencer can make. -/
inductive Call where
  | start (now : ℕ)
  | stop (now : ℕ)
  deriving DecidableEq

/-- Execute one sequencer call. -/
def Call.run (tickMs : ℕ) : Call → State → State
  | .start now, s => start_irrigation now s
  | .stop now, s => stop_irrigation tickMs now s

/-- Execute a finite sequence of sequencer calls, left to right. -/
def runCalls (tickMs : ℕ) (calls : List Call) (s : State) : State :=
  calls.foldl (fun st c => c.run tickMs st) s

/-! ## Specification vocabulary -/

/-- The snapshot with the given soil moisture and the placeholder values of the other
fields. -/
def snapshot (m : ℚ) : sensor_data_t :=
  { soil_moisture := m, soil_temperature := 25, air_humidity := 60, time_of_day := 0,
    days_since_rain := 2, last_irrigation_hours := 1 }

/-- In the command list `l`, every occurrence of `x` is immediately preceded by `a, b`. -/
def PrecededBy (x a b : HwCmd) (l : List HwCmd) : Prop :=
  ∀ pre post, l = pre ++ x :: post → ∃ front, pre = front ++ [a, b]

/-- Inductive invariant of the sequencer: the outputs agree with `is_irrigating`, and in the
command record every valve-on follows pump-on and the 2000 ms delay, every pump-off follows
valve-off and the 1000 ms delay. -/
def SeqInv (s : State) : Prop :=
  s.pump = s.is_irrigating ∧ s.valve = s.is_irrigating ∧
  PrecededBy (HwCmd.gpio SOLENOID_PIN true) (HwCmd.gpio PUMP_PIN true) (HwCmd.delay 2000) s.hw ∧
  PrecededBy (HwCmd.gpio PUMP_PIN false) (HwCmd.gpio SOLENOID_PIN false) (HwCmd.delay 1000) s.hw

/-! # Theorems -/

/-! ## Rounding lemmas -/

theorem rne_intCast (n : ℤ) : rne (n : ℚ) = n := by
  simp [rne]

theorem abs_rne_sub_le (q : ℚ) : |(rne q : ℚ) - q| ≤ 1 / 2 := by
  have h0 : (0 : ℚ) ≤ q - ⌊q⌋ := by linarith [Int.floor_le q]
  have h1 : q - ⌊q⌋ < 1 := by linarith [Int.lt_floor_add_one q]
  unfold rne
  split_ifs with ha hb hc
  · rw [abs_le]; constructor <;> linarith
  · rw [abs_le]; constructor <;> push_cast <;> linarith
  · rw [abs_le]; constructor <;> linarith
  · rw [abs_le]; constructor <;> push_cast <;> linarith

theorem floor_le_rne (q : ℚ) : ⌊q⌋ ≤ rne q := by
  unfold rne; split_ifs <;> omega

theorem rne_le_floor_add_one (q : ℚ) : rne q ≤ ⌊q⌋ + 1 := by
  unfold rne; split_ifs <;> omega

theorem rne_mono {x y : ℚ} (h : x ≤ y) : rne x ≤ rne y := by
  have hf : ⌊x⌋ ≤ ⌊y⌋ := Int.floor_mono h
  rcases hf.lt_or_eq with hlt | heq
  · exact le_trans (rne_le_floor_add_one x) (le_trans (by omega) (floor_le_rne y))
  · unfold rne
    rw [heq]
    split_ifs <;> first | omega | (exfalso; linarith)

theorem rne_eq_of_abs_lt {q : ℚ} {n : ℤ} (h : |q - n| < 1 / 2) : rne q = n := by
  rw [abs_lt] at h
  have h1 := abs_rne_sub_le q
  rw [abs_le] at h1
  have hq : |((rne q - n : ℤ) : ℚ)| < 1 := by
    rw [abs_lt]; push_cast; constructor <;> linarith
  have h2 : |rne q - n| < 1 := by exact_mod_cast hq
  have h3 := Int.abs_lt_one_iff.mp h2
  omega

theorem log2_eq {q : ℚ} {e : ℤ} (h1 : (2 : ℚ) ^ e ≤ q) (h2 : q < 2 ^ (e + 1)) :
    Int.log 2 q = e := by
  have hq : 0 < q := lt_of_lt_of_le (by positivity) h1
  have a : e ≤ Int.log 2 q :=
    (Int.zpow_le_iff_le_log (by norm_num) hq).mp (by exact_mod_cast h1)
  have b : Int.log 2 q < e + 1 :=
    (Int.lt_zpow_iff_log_lt (by norm_num) hq).mp (by exact_mod_cast h2)
  omega

theorem two_zpow_log_le {q : ℚ} (hq : 0 < q) : (2 : ℚ) ^ Int.log 2 q ≤ q := by
  have h := Int.zpow_log_le_self (b := 2) (by norm_num) hq
  exact_mod_cast h

theorem lt_two_zpow_log_succ (q : ℚ) : q < (2 : ℚ) ^ (Int.log 2 q + 1) := by
  have h := Int.lt_zpow_succ_log_self (b := 2) (by norm_num) q
  exact_mod_cast h

/-- Evaluation rule for `roundBin`: the binade `e` and the rounded significand `n` of a
concrete `q` are certified by three inequalities. -/
theorem roundBin_eval {p : ℕ} {emin : ℤ} {q : ℚ} (e n : ℤ) (he : emin ≤ e)
    (h1 : (2 : ℚ) ^ e ≤ |q|) (h2 : |q| < 2 ^ (e + 1))
    (hn : |q / 2 ^ (e - ((p : ℤ) - 1)) - n| < 1 / 2) :
    roundBin p emin q = n * 2 ^ (e - ((p : ℤ) - 1)) := by
  have hu : ulpExp p emin q = e - ((p : ℤ) - 1) := by
    unfold ulpExp; rw [log2_eq h1 h2, max_eq_left he]
  unfold roundBin
  rw [hu, rne_eq_of_abs_lt hn]

/-- A multiple of a power of two at or above the unit in the last place is representable. -/
theorem roundBin_exact {p : ℕ} {emin : ℤ} (m k : ℤ)
    (h : ulpExp p emin (m * 2 ^ k) ≤ k) :
    roundBin p emin (m * 2 ^ k) = m * 2 ^ k := by
  unfold roundBin
  set u := ulpExp p emin (m * 2 ^ k) with hu
  have h2 : (2 : ℚ) ^ u ≠ 0 := by positivity
  have hc : (m : ℚ) * 2 ^ k / 2 ^ u = ((m * 2 ^ (k - u).toNat : ℤ) : ℚ) := by
    push_cast
    rw [← zpow_natCast, Int.toNat_of_nonneg (by omega), zpow_sub₀ (by norm_num)]
    field_simp
  rw [hc, rne_intCast]
  push_cast
  rw [← zpow_natCast, Int.toNat_of_nonneg (by omega), zpow_sub₀ (by norm_num)]
  field_simp

theorem roundBin_zero (p : ℕ) (emin : ℤ) : roundBin p emin 0 = 0 := by
  have h := @roundBin_exact p emin 0 (ulpExp p emin 0) (by simp)
  simpa using h

theorem roundBin_intCast {p : ℕ} {emin : ℤ} (hp : 1 ≤ p) (hemin : emin ≤ 0) (n : ℤ)
    (hn : |n| < 2 ^ p) : roundBin p emin (n : ℚ) = n := by
  have h := @roundBin_exact p emin n 0
  simp only [zpow_zero, mul_one] at h
  apply h
  unfold ulpExp
  have hlog : Int.log 2 |(n : ℚ)| ≤ (p : ℤ) - 1 := by
    rcases eq_or_ne n 0 with h0 | h0
    · subst h0; simp; omega
    · have hpos : (0 : ℚ) < |(n : ℚ)| := abs_pos.mpr (by exact_mod_cast h0)
      have hlt : |(n : ℚ)| < ((2 : ℕ) : ℚ) ^ ((p : ℕ) : ℤ) := by
        have : ((|n| : ℤ) : ℚ) < ((2 ^ p : ℤ) : ℚ) := by exact_mod_cast hn
        push_cast at this
        simpa using this
      have := (Int.lt_zpow_iff_log_lt (by norm_num) hpos).mp hlt
      omega
  have hmax : max (Int.log 2 |(n : ℚ)|) emin ≤ (p : ℤ) - 1 := max_le hlog (by omega)
  omega

theorem roundBin_nonneg {p : ℕ} {emin : ℤ} {q : ℚ} (h : 0 ≤ q) : 0 ≤ roundBin p emin q := by
  unfold roundBin
  have h1 : 0 ≤ rne (q / 2 ^ ulpExp p emin q) := by
    have h2 := rne_mono (x := 0) (y := q / 2 ^ ulpExp p emin q) (by positivity)
    rwa [show (0 : ℚ) = ((0 : ℤ) : ℚ) by simp, rne_intCast] at h2
  have h3 : (0 : ℚ) ≤ rne (q / 2 ^ ulpExp p emin q) := by exact_mod_cast h1
  positivity

theorem roundBin_mono_of_pos {p : ℕ} {emin : ℤ} (hp : 1 ≤ p) {x y : ℚ} (hx : 0 < x)
    (h : x ≤ y) :
    roundBin p emin x ≤ roundBin p emin y := by
  have hy : 0 < y := lt_of_lt_of_le hx h
  have hlog : Int.log 2 x ≤ Int.log 2 y := Int.log_mono_right hx h
  have hux : ulpExp p emin x = max (Int.log 2 x) emin - ((p : ℤ) - 1) := by
    unfold ulpExp; rw [abs_of_pos hx]
  have huy : ulpExp p emin y = max (Int.log 2 y) emin - ((p : ℤ) - 1) := by
    unfold ulpExp; rw [abs_of_pos hy]
  have hule : ulpExp p emin x ≤ ulpExp p emin y := by
    rw [hux, huy]; have := max_le_max_right emin hlog; omega
  rcases hule.lt_or_eq with hlt | heq
  · -- `x` and `y` lie in different binades: a power of two separates their roundings
    have hey : emin < Int.log 2 y := by
      rw [hux, huy] at hlt
      by_contra hc
      rw [max_eq_right (not_lt.mp hc)] at hlt
      have := le_max_right (Int.log 2 x) emin
      omega
    have huy2 : ulpExp p emin y = Int.log 2 y - ((p : ℤ) - 1) := by
      rw [huy, max_eq_left hey.le]
    have hxlt : x < 2 ^ (ulpExp p emin x + p) := by
      refine lt_of_lt_of_le (lt_two_zpow_log_succ x) ?_
      apply zpow_le_zpow_right₀ (by norm_num)
      rw [hux]; have := le_max_left (Int.log 2 x) emin; omega
    have hxr : roundBin p emin x ≤ 2 ^ (ulpExp p emin x + p) := by
      unfold roundBin
      have h2 : (0 : ℚ) < 2 ^ ulpExp p emin x := by positivity
      have hle : x / 2 ^ ulpExp p emin x ≤ ((2 ^ p : ℤ) : ℚ) := by
        rw [div_le_iff₀ h2]; push_cast
        rw [← zpow_natCast, ← zpow_add₀ (by norm_num)]
        rw [add_comm]; exact hxlt.le
      have hr := rne_mono hle
      rw [rne_intCast] at hr
      have hr2 : (rne (x / 2 ^ ulpExp p emin x) : ℚ) ≤ ((2 ^ p : ℤ) : ℚ) := by
        exact_mod_cast hr
      calc (rne (x / 2 ^ ulpExp p emin x) : ℚ) * 2 ^ ulpExp p emin x
          ≤ ((2 ^ p : ℤ) : ℚ) * 2 ^ ulpExp p emin x := by gcongr
        _ = 2 ^ (ulpExp p emin x + p) := by
            push_cast; rw [← zpow_natCast, ← zpow_add₀ (by norm_num), add_comm]
    have hyr : (2 : ℚ) ^ (Int.log 2 y) ≤ roundBin p emin y := by
      unfold roundBin
      have h2 : (0 : ℚ) < 2 ^ ulpExp p emin y := by positivity
      have hle : ((2 ^ (p - 1) : ℤ) : ℚ) ≤ y / 2 ^ ulpExp p emin y := by
        rw [le_div_iff₀ h2]; push_cast
        rw [← zpow_natCast, ← zpow_add₀ (by norm_num), huy2]
        have hsum : ((p - 1 : ℕ) : ℤ) + (Int.log 2 y - ((p : ℤ) - 1)) = Int.log 2 y := by omega
        rw [hsum]; exact two_zpow_log_le hy
      have hr := rne_mono hle
      rw [rne_intCast] at hr
      have hr2 : ((2 ^ (p - 1) : ℤ) : ℚ) ≤ (rne (y / 2 ^ ulpExp p emin y) : ℚ) := by
        exact_mod_cast hr
      calc (2 : ℚ) ^ (Int.log 2 y) = ((2 ^ (p - 1) : ℤ) : ℚ) * 2 ^ ulpExp p emin y := by
            push_cast; rw [← zpow_natCast, ← zpow_add₀ (by norm_num), huy2]
            congr 1; omega
        _ ≤ (rne (y / 2 ^ ulpExp p emin y) : ℚ) * 2 ^ ulpExp p emin y := by gcongr
    refine le_trans hxr (le_trans ?_ hyr)
    apply zpow_le_zpow_right₀ (by norm_num)
    rw [huy2] at hlt; omega
  · unfold roundBin
    rw [heq]
    have h2 : (0 : ℚ) < 2 ^ ulpExp p emin y := by positivity
    have hr : rne (x / 2 ^ ulpExp p emin y) ≤ rne (y / 2 ^ ulpExp p emin y) :=
      rne_mono (by gcongr)
    have hr2 : (rne (x / 2 ^ ulpExp p emin y) : ℚ) ≤ rne (y / 2 ^ ulpExp p emin y) := by
      exact_mod_cast hr
    gcongr

theorem roundBin_mono_of_nonneg {p : ℕ} {emin : ℤ} (hp : 1 ≤ p) {x y : ℚ} (hx : 0 ≤ x)
    (h : x ≤ y) : roundBin p emin x ≤ roundBin p emin y := by
  rcases hx.lt_or_eq with hpos | hz
  · exact roundBin_mono_of_pos hp hpos h
  · rw [← hz, roundBin_zero]; exact roundBin_nonneg (hz ▸ h)

/-- Relative error of rounding in the normal range: at most `2 ^ (-p)`. -/
theorem abs_roundBin_sub_le {p : ℕ} {emin : ℤ} {q : ℚ} (hq : (2 : ℚ) ^ emin ≤ q) :
    |roundBin p emin q - q| ≤ q * 2 ^ (-(p : ℤ)) := by
  have hpos : 0 < q := lt_of_lt_of_le (by positivity) hq
  have hlog : emin ≤ Int.log 2 q :=
    (Int.zpow_le_iff_le_log (by norm_num) hpos).mp (by exact_mod_cast hq)
  have hu : ulpExp p emin q = Int.log 2 q - ((p : ℤ) - 1) := by
    unfold ulpExp; rw [abs_of_pos hpos, max_eq_left hlog]
  unfold roundBin
  rw [hu]
  set u := Int.log 2 q - ((p : ℤ) - 1) with hu2
  have h2 : (0 : ℚ) < 2 ^ u := by positivity
  have h := abs_rne_sub_le (q / 2 ^ u)
  have e1 : (rne (q / 2 ^ u) : ℚ) * 2 ^ u - q = ((rne (q / 2 ^ u) : ℚ) - q / 2 ^ u) * 2 ^ u := by
    field_simp
  rw [e1, abs_mul, abs_of_pos h2]
  calc |(rne (q / 2 ^ u) : ℚ) - q / 2 ^ u| * 2 ^ u ≤ 1 / 2 * 2 ^ u := by gcongr
    _ = 2 ^ (Int.log 2 q) * 2 ^ (-(p : ℤ)) := by
        rw [← zpow_add₀ (by norm_num), hu2]
        have hs : Int.log 2 q + -(p : ℤ) = (Int.log 2 q - ((p : ℤ) - 1)) + (-1) := by ring
        rw [hs, zpow_add₀ (by norm_num)]
        simp; ring
    _ ≤ q * 2 ^ (-(p : ℤ)) := by
        gcongr; exact two_zpow_log_le hpos

/-! ### Consequences for `f32` and `lit` -/

theorem f32_intCast (n : ℤ) (hn : |n| < 16777216) : f32 (n : ℚ) = n :=
  roundBin_intCast (by norm_num) (by norm_num) n (by norm_num; exact hn)

theorem f64_intCast (n : ℤ) (hn : |n| < 16777216) : f64 (n : ℚ) = n :=
  roundBin_intCast (by norm_num) (by norm_num) n (by norm_num; exact lt_trans hn (by norm_num))

theorem lit_intCast (n : ℤ) (hn : |n| < 16777216) : lit (n : ℚ) = n := by
  unfold lit; rw [f64_intCast n hn, f32_intCast n hn]

theorem f32_nonneg {q : ℚ} (h : 0 ≤ q) : 0 ≤ f32 q := roundBin_nonneg h

theorem f32_mono {x y : ℚ} (hx : 0 ≤ x) (h : x ≤ y) : f32 x ≤ f32 y :=
  roundBin_mono_of_nonneg (by norm_num) hx h

theorem f64_mono {x y : ℚ} (hx : 0 ≤ x) (h : x ≤ y) : f64 x ≤ f64 y :=
  roundBin_mono_of_nonneg (by norm_num) hx h

theorem f32_one : f32 1 = 1 := by
  have h := f32_intCast 1 (by norm_num)
  simpa using h

theorem f64_one : f64 1 = 1 := by
  have h := f64_intCast 1 (by norm_num)
  simpa using h

theorem lit_zero : lit 0 = 0 := by
  have h := lit_intCast 0 (by norm_num)
  simpa using h

theorem lit_two : lit 2 = 2 := by
  have h := lit_intCast 2 (by norm_num)
  simpa using h

theorem lit_five : lit 5 = 5 := by
  have h := lit_intCast 5 (by norm_num)
  simpa using h

/-- A literal in the unit interval is stored as a float in the unit interval. -/
theorem lit_mem_unit {q : ℚ} (h0 : 0 ≤ q) (h1 : q ≤ 1) : 0 ≤ lit q ∧ lit q ≤ 1 := by
  unfold lit
  have a : 0 ≤ f64 q := roundBin_nonneg h0
  have b : f64 q ≤ 1 := by
    have h := f64_mono h0 h1
    rwa [f64_one] at h
  refine ⟨f32_nonneg a, ?_⟩
  have h := f32_mono a b
  rwa [f32_one] at h

/-- Relative error of `f32` on inputs of at least `2 ^ (-126)`. -/
theorem abs_f32_sub_le {q : ℚ} (hq : (2 : ℚ) ^ (-126 : ℤ) ≤ q) :
    |f32 q - q| ≤ q / 16777216 := by
  have h := @abs_roundBin_sub_le 24 (-126) q hq
  have e : (2 : ℚ) ^ (-((24 : ℕ) : ℤ)) = 1 / 16777216 := by norm_num
  rw [e] at h
  unfold f32
  linarith

/-- The binary32 value of the literal `0.3`. -/
theorem lit_three_tenths : lit (3 / 10) = 5033165 / 16777216 := by
  unfold lit f32 f64
  have h64 : roundBin 53 (-1022) (3 / 10) = 5404319552844595 * 2 ^ (-2 - (((53 : ℕ) : ℤ) - 1)) := by
    apply roundBin_eval (-2) 5404319552844595 (by norm_num)
    · norm_num [abs_of_pos]
    · norm_num [abs_of_pos]
    · norm_num [abs_lt]
  rw [h64]
  have h32 : roundBin 24 (-126) (5404319552844595 * 2 ^ (-2 - (((53 : ℕ) : ℤ) - 1)))
      = 10066330 * 2 ^ (-2 - (((24 : ℕ) : ℤ) - 1)) := by
    apply roundBin_eval (-2) 10066330 (by norm_num)
    · norm_num [abs_of_pos]
    · norm_num [abs_of_pos]
    · norm_num [abs_lt]
  rw [h32]
  norm_num

/-! ## The decision rule -/

theorem dry_branch_eq (s : State) (sensors : sensor_data_t)
    (h : sensors.soil_moisture < 40) :
    make_irrigation_decision s sensors =
      { should_irrigate := true, irrigation_duration := 5,
        urgency_score := f32 (f32 (40 - sensors.soil_moisture) / 40),
        confidence := lit (85 / 100) } := by
  have e : sensors.soil_moisture < ((DRY_THRESHOLD : ℤ) : ℚ) := by
    simp only [DRY_THRESHOLD]; push_cast; exact h
  unfold make_irrigation_decision
  rw [if_pos e, lit_five]
  simp only [DRY_THRESHOLD]; push_cast; rfl

theorem wet_branch_eq (s : State) (sensors : sensor_data_t)
    (h : 60 < sensors.soil_moisture) :
    make_irrigation_decision s sensors =
      { should_irrigate := false, irrigation_duration := 0, urgency_score := 0,
        confidence := lit (90 / 100) } := by
  have h1 : ¬ sensors.soil_moisture < ((DRY_THRESHOLD : ℤ) : ℚ) := by
    simp only [DRY_THRESHOLD]; push_cast; linarith
  have h2 : sensors.soil_moisture > ((WET_THRESHOLD : ℤ) : ℚ) := by
    simp only [WET_THRESHOLD]; push_cast; linarith
  unfold make_irrigation_decision
  rw [if_neg h1, if_pos h2, lit_zero]

theorem band_branch_eq (s : State) (sensors : sensor_data_t)
    (h40 : 40 ≤ sensors.soil_moisture) (h60 : sensors.soil_moisture ≤ 60) :
    make_irrigation_decision s sensors =
      { should_irrigate := s.is_irrigating,
        irrigation_duration := if s.is_irrigating = true then 2 else 0,
        urgency_score := lit (3 / 10), confidence := lit (70 / 100) } := by
  have h1 : ¬ sensors.soil_moisture < ((DRY_THRESHOLD : ℤ) : ℚ) := by
    simp only [DRY_THRESHOLD]; push_cast; linarith
  have h2 : ¬ sensors.soil_moisture > ((WET_THRESHOLD : ℤ) : ℚ) := by
    simp only [WET_THRESHOLD]; push_cast; linarith
  unfold make_irrigation_decision
  rw [if_neg h1, if_neg h2, lit_two, lit_zero]

theorem f32_forty_sub_small : f32 (40 - 2 ^ (-30 : ℤ)) = 40 := by
  unfold f32
  have h : roundBin 24 (-126) (40 - 2 ^ (-30 : ℤ)) = 10485760 * 2 ^ (5 - (((24 : ℕ) : ℤ) - 1)) := by
    apply roundBin_eval 5 10485760 (by norm_num)
    · norm_num [abs_of_pos]
    · norm_num [abs_of_pos]
    · norm_num [abs_lt]
  rw [h]; norm_num

theorem isF32_two_zpow_neg_thirty : isF32 (2 ^ (-30 : ℤ)) := by
  constructor
  · unfold f32
    have h : roundBin 24 (-126) (2 ^ (-30 : ℤ)) = 8388608 * 2 ^ (-30 - (((24 : ℕ) : ℤ) - 1)) := by
      apply roundBin_eval (-30) 8388608 (by norm_num)
      · norm_num [abs_of_pos]
      · norm_num [abs_of_pos]
      · norm_num [abs_lt]
    rw [h]; norm_num
  · norm_num [abs_of_pos]

theorem isF32_zero : isF32 0 := by
  constructor
  · exact roundBin_zero 24 (-126)
  · norm_num

theorem f32_half : f32 (1 / 2) = 1 / 2 := by
  have e2 : (1 : ℚ) / 2 = ((1 : ℤ) : ℚ) * 2 ^ (-1 : ℤ) := by norm_num
  have hx := @roundBin_exact 24 (-126) 1 (-1) (by
    unfold ulpExp
    have hl : Int.log 2 |((1 : ℤ) : ℚ) * 2 ^ (-1 : ℤ)| = -1 := by
      apply log2_eq <;> norm_num [abs_of_pos]
    rw [hl]; norm_num)
  unfold f32
  rw [e2, hx]

/-- Urgency of the dry branch at an integer percentage `k < 40`: the subtraction is exact, so
the result is the quotient `(40 - k) / 40` rounded once. -/
theorem urgency_of_percentage (s : State) (sensors : sensor_data_t) (k : ℕ)
    (hs : sensors.soil_moisture = k) (hk : k < 40) :
    (make_irrigation_decision s sensors).urgency_score = f32 ((40 - (k : ℚ)) / 40) := by
  rw [dry_branch_eq s sensors (by rw [hs]; exact_mod_cast hk), hs]
  have h := f32_intCast (40 - (k : ℤ)) (by rw [abs_lt]; constructor <;> omega)
  push_cast at h
  show f32 (f32 (40 - (k : ℚ)) / 40) = _
  rw [h]

theorem urgency_bounds (k : ℕ) (hk : k < 40) :
    (40 - (k : ℚ)) / 40 * (1 - 1 / 16777216) ≤ f32 ((40 - (k : ℚ)) / 40) ∧
    f32 ((40 - (k : ℚ)) / 40) ≤ (40 - (k : ℚ)) / 40 * (1 + 1 / 16777216) := by
  have hk2 : (k : ℚ) ≤ 39 := by exact_mod_cast Nat.lt_succ_iff.mp hk
  have hq : (2 : ℚ) ^ (-126 : ℤ) ≤ (40 - (k : ℚ)) / 40 := by
    have h1 : (2 : ℚ) ^ (-126 : ℤ) ≤ 1 / 40 := by norm_num
    have h2 : (1 : ℚ) / 40 ≤ (40 - (k : ℚ)) / 40 := by
      apply div_le_div_of_nonneg_right _ (by norm_num); linarith
    linarith
  have h := abs_f32_sub_le hq
  rw [abs_le] at h
  constructor <;> linarith [h.1, h.2]

/-- C1. In the hysteresis band `40 <= m <= 60` (both ends included) the decision carries the
current `is_irrigating` flag forward: `should_irrigate` equals the flag, the duration is 2.0
when the flag is set and 0.0 otherwise, urgency is the float `0.3` and confidence the float
`0.70`. -/
theorem decision_hysteresis_band (s : State) (sensors : sensor_data_t)
    (h40 : 40 ≤ sensors.soil_moisture) (h60 : sensors.soil_moisture ≤ 60) :
    (make_irrigation_decision s sensors).should_irrigate = s.is_irrigating ∧
    (make_irrigation_decision s sensors).irrigation_duration
      = (if s.is_irrigating = true then 2 else 0) ∧
    (make_irrigation_decision s sensors).urgency_score = lit (3 / 10) ∧
    (make_irrigation_decision s sensors).confidence = lit (70 / 100) := by
  rw [band_branch_eq s sensors h40 h60]
  exact ⟨rfl, rfl, rfl, rfl⟩

/-- At moisture 50 with the flag set, the decision keeps irrigating for 2.0 minutes. -/
theorem decision_hysteresis_band_witness :
    (make_irrigation_decision { power_on with is_irrigating := true } (snapshot 50)).should_irrigate
      = true ∧
    (make_irrigation_decision { power_on with is_irrigating := true }
      (snapshot 50)).irrigation_duration = 2 :=
  have h := decision_hysteresis_band { power_on with is_irrigating := true } (snapshot 50)
    (by norm_num [snapshot]) (by norm_num [snapshot])
  ⟨h.1, by simpa using h.2.1⟩

/-- C3. Above the wet threshold (`m > 60`) the decision is not to irrigate, whatever the
`is_irrigating` flag: duration 0.0, urgency 0.0, confidence the float `0.90`. -/
theorem decision_wet (s : State) (sensors : sensor_data_t)
    (h60 : 60 < sensors.soil_moisture) :
    (make_irrigation_decision s sensors).should_irrigate = false ∧
    (make_irrigation_decision s sensors).irrigation_duration = 0 ∧
    (make_irrigation_decision s sensors).urgency_score = 0 ∧
    (make_irrigation_decision s sensors).confidence = lit (90 / 100) := by
  rw [wet_branch_eq s sensors h60]
  exact ⟨rfl, rfl, rfl, rfl⟩

/-- At moisture 80 with the flag set, the decision is to stop, with urgency 0.0. -/
theorem decision_wet_witness :
    (make_irrigation_decision { power_on with is_irrigating := true } (snapshot 80)).should_irrigate
      = false ∧
    (make_irrigation_decision { power_on with is_irrigating := true } (snapshot 80)).urgency_score
      = 0 :=
  have h := decision_wet { power_on with is_irrigating := true } (snapshot 80)
    (by norm_num [snapshot])
  ⟨h.1, h.2.2.1⟩

/-- C2, as stated, fails: `0` and `2 ^ (-30)` are binary32 moisture values with
`0 < 2 ^ (-30) < 40`, yet the urgency at the smaller one is not strictly greater than the
urgency at the larger one (both are `1.0`, since `40 - 2 ^ (-30)` rounds to `40`). -/
theorem decision_dry_not_strictly_decreasing :
    isF32 0 ∧ isF32 (2 ^ (-30 : ℤ)) ∧ (0 : ℚ) < 2 ^ (-30 : ℤ) ∧ (2 : ℚ) ^ (-30 : ℤ) < 40 ∧
    (make_irrigation_decision power_on (snapshot 0)).urgency_score = 1 ∧
    (make_irrigation_decision power_on (snapshot (2 ^ (-30 : ℤ)))).urgency_score = 1 ∧
    ¬ ((make_irrigation_decision power_on (snapshot (2 ^ (-30 : ℤ)))).urgency_score
        < (make_irrigation_decision power_on (snapshot 0)).urgency_score) := by
  have h0 : (make_irrigation_decision power_on (snapshot 0)).urgency_score = 1 := by
    rw [urgency_of_percentage power_on (snapshot 0) 0 (by simp [snapshot]) (by norm_num)]
    norm_num [f32_one]
  have h1 : (make_irrigation_decision power_on (snapshot (2 ^ (-30 : ℤ)))).urgency_score = 1 := by
    rw [dry_branch_eq power_on _ (by norm_num [snapshot])]
    show f32 (f32 (40 - 2 ^ (-30 : ℤ)) / 40) = 1
    rw [f32_forty_sub_small]; norm_num [f32_one]
  refine ⟨isF32_zero, isF32_two_zpow_neg_thirty, by norm_num, by norm_num, h0, h1, ?_⟩
  rw [h0, h1]; norm_num

/-- C2, amended. Below the dry threshold (`m < 40`) the decision is to irrigate, whatever
the `is_irrigating` flag: duration 5.0, confidence the float `0.85`, and urgency the
single-precision value of `(40 - m) / 40`. That urgency never increases as `m` increases
toward 40; over the integer percentages `0 .. 39` it is strictly decreasing and within a
relative error of `2 ^ (-24)` of the exact quotient; at `m = 20` it is exactly `0.5`. -/
theorem decision_dry (s : State) (sensors : sensor_data_t)
    (h40 : sensors.soil_moisture < 40) :
    (make_irrigation_decision s sensors).should_irrigate = true ∧
    (make_irrigation_decision s sensors).irrigation_duration = 5 ∧
    (make_irrigation_decision s sensors).confidence = lit (85 / 100) ∧
    (make_irrigation_decision s sensors).urgency_score
      = f32 (f32 (40 - sensors.soil_moisture) / 40) ∧
    (∀ (t : State) (drier : sensor_data_t), drier.soil_moisture ≤ sensors.soil_moisture →
      (make_irrigation_decision s sensors).urgency_score
        ≤ (make_irrigation_decision t drier).urgency_score) ∧
    (∀ (t : State) (drier : sensor_data_t) (k j : ℕ), sensors.soil_moisture = k →
      drier.soil_moisture = j → j < k →
      (make_irrigation_decision s sensors).urgency_score
        < (make_irrigation_decision t drier).urgency_score) ∧
    (∀ k : ℕ, sensors.soil_moisture = k →
      |(make_irrigation_decision s sensors).urgency_score - (40 - (k : ℚ)) / 40|
        ≤ (40 - (k : ℚ)) / 40 / 16777216) ∧
    (sensors.soil_moisture = 20 → (make_irrigation_decision s sensors).urgency_score = 1 / 2) := by
  have hnat : ∀ k : ℕ, sensors.soil_moisture = k → k < 40 := by
    intro k hk
    have : (k : ℚ) < 40 := by rw [← hk]; exact h40
    exact_mod_cast this
  refine ⟨?_, ?_, ?_, ?_, ?_, ?_, ?_, ?_⟩
  · rw [dry_branch_eq s sensors h40]
  · rw [dry_branch_eq s sensors h40]
  · rw [dry_branch_eq s sensors h40]
  · rw [dry_branch_eq s sensors h40]
  · intro t drier hle
    rw [dry_branch_eq s sensors h40,
      dry_branch_eq t drier (lt_of_le_of_lt hle h40)]
    have a : (0 : ℚ) ≤ 40 - sensors.soil_moisture := by linarith
    have b : f32 (40 - sensors.soil_moisture) ≤ f32 (40 - drier.soil_moisture) :=
      f32_mono a (by linarith)
    exact f32_mono (div_nonneg (f32_nonneg a) (by norm_num))
      (div_le_div_of_nonneg_right b (by norm_num))
  · intro t drier k j hk hj hjk
    have hk40 := hnat k hk
    rw [urgency_of_percentage s sensors k hk hk40,
      urgency_of_percentage t drier j hj (lt_trans hjk hk40)]
    have bk := (urgency_bounds k hk40).2
    have bj := (urgency_bounds j (lt_trans hjk hk40)).1
    have hjk2 : (j : ℚ) + 1 ≤ k := by exact_mod_cast hjk
    have hk39 : (k : ℚ) ≤ 39 := by exact_mod_cast Nat.lt_succ_iff.mp hk40
    have hj0 : (0 : ℚ) ≤ j := by positivity
    linarith
  · intro k hk
    rw [urgency_of_percentage s sensors k hk (hnat k hk), abs_le]
    have b := urgency_bounds k (hnat k hk)
    constructor <;> linarith [b.1, b.2]
  · intro h20
    rw [urgency_of_percentage s sensors 20 (by rw [h20]; norm_num) (by norm_num)]
    have e2 : ((40 : ℚ) - ((20 : ℕ) : ℚ)) / 40 = 1 / 2 := by norm_num
    rw [e2, f32_half]

/-- At moisture 20 the decision is to irrigate for 5.0 minutes with urgency 0.5, which is
below the urgency at moisture 19. -/
theorem decision_dry_witness :
    (make_irrigation_decision power_on (snapshot 20)).should_irrigate = true ∧
    (make_irrigation_decision power_on (snapshot 20)).irrigation_duration = 5 ∧
    (make_irrigation_decision power_on (snapshot 20)).urgency_score = 1 / 2 ∧
    (make_irrigation_decision power_on (snapshot 20)).urgency_score
      < (make_irrigation_decision power_on (snapshot 19)).urgency_score :=
  have h := decision_dry power_on (snapshot 20) (by norm_num [snapshot])
  ⟨h.1, h.2.1, h.2.2.2.2.2.2.2 (by norm_num [snapshot]),
    h.2.2.2.2.2.1 power_on (snapshot 19) 20 19 (by norm_num [snapshot])
      (by norm_num [snapshot]) (by norm_num)⟩

/-! ## The moisture reader -/

theorem tdiv_425 (a : ℤ) :
    Int.tdiv a 425 = if 0 ≤ a then a / 425 else -((-a) / 425) := by
  split_ifs with h
  · exact Int.tdiv_eq_ediv h (by norm_num)
  · have h2 : a = -(-a) := by omega
    rw [h2, Int.neg_tdiv, Int.tdiv_eq_ediv (by omega) (by norm_num)]
    simp

theorem read_moisture_percentage_ok (raw : ℤ) :
    read_moisture_percentage { rc := 0, raw := raw } = .ok
      (if (if Int.tdiv (wrap32 (wrap32 (800 - raw) * 100)) 425 < 0 then 0
            else Int.tdiv (wrap32 (wrap32 (800 - raw) * 100)) 425) > 100 then 100
       else (if Int.tdiv (wrap32 (wrap32 (800 - raw) * 100)) 425 < 0 then 0
            else Int.tdiv (wrap32 (wrap32 (800 - raw) * 100)) 425)) := by
  simp [read_moisture_percentage, ESP_ERROR_CHECK, AIR_VALUE, WATER_VALUE, wrap32]

/-- The percentage returned by a successful read lies in `[0, 100]`, for every raw value. -/
theorem read_moisture_percentage_range (adc : AdcRead) (p : ℤ)
    (h : read_moisture_percentage adc = .ok p) : 0 ≤ p ∧ p ≤ 100 := by
  unfold read_moisture_percentage at h
  cases hc : ESP_ERROR_CHECK adc.rc with
  | error e => rw [hc] at h; cases h
  | ok u =>
    rw [hc] at h
    simp only [Except.ok.injEq] at h
    subst h
    split_ifs <;> omega

/-- Where `(800 - raw) * 100` fits a C `int`, no operation of the reader wraps and the
result is the clamped truncated quotient. -/
theorem read_moisture_percentage_in_range (raw : ℤ) (hlo : -21474036 ≤ raw)
    (hhi : raw ≤ 21475636) :
    (800 ≤ raw → read_moisture_percentage { rc := 0, raw := raw } = .ok 0) ∧
    (raw ≤ 375 → read_moisture_percentage { rc := 0, raw := raw } = .ok 100) ∧
    (375 < raw → raw < 800 →
      read_moisture_percentage { rc := 0, raw := raw }
        = .ok (Int.tdiv ((800 - raw) * 100) 425)) := by
  have hw : wrap32 (wrap32 (800 - raw) * 100) = (800 - raw) * 100 := by
    unfold wrap32; omega
  rw [read_moisture_percentage_ok, hw, tdiv_425]
  refine ⟨?_, ?_, ?_⟩
  · intro h; congr 1; split_ifs <;> omega
  · intro h; congr 1; split_ifs <;> omega
  · intro h1 h2; congr 1; split_ifs <;> omega

/-- C4. For every raw reading of the ADC (`0 .. 4095` at the configured 12-bit resolution)
on which the read succeeds, `read_moisture_percentage` returns 0 when `raw >= 800`
(`AIR_VALUE`), 100 when `raw <= 375` (`WATER_VALUE`), the truncated quotient
`(800 - raw) * 100 / 425` when `375 < raw < 800`, and the returned value is always in
`[0, 100]`. -/
theorem read_moisture_percentage_spec (raw : ℤ) (hraw : isAdcReading raw) :
    (AIR_VALUE ≤ raw → read_moisture_percentage { rc := 0, raw := raw } = .ok 0) ∧
    (raw ≤ WATER_VALUE → read_moisture_percentage { rc := 0, raw := raw } = .ok 100) ∧
    (WATER_VALUE < raw → raw < AIR_VALUE →
      read_moisture_percentage { rc := 0, raw := raw }
        = .ok (Int.tdiv ((800 - raw) * 100) 425)) ∧
    (∃ p, read_moisture_percentage { rc := 0, raw := raw } = .ok p ∧ 0 ≤ p ∧ p ≤ 100) := by
  have hr : 0 ≤ raw ∧ raw < 4096 := by
    simpa [isAdcReading, ADC_BITWIDTH] using hraw
  obtain ⟨h1, h2, h3⟩ := read_moisture_percentage_in_range raw (by omega) (by omega)
  simp only [AIR_VALUE, WATER_VALUE]
  exact ⟨h1, h2, h3, _, read_moisture_percentage_ok raw,
    read_moisture_percentage_range _ _ (read_moisture_percentage_ok raw)⟩

/-- Raw 900 reads as 0%, raw 100 as 100%, raw 500 as 70%. -/
theorem read_moisture_percentage_spec_witness :
    read_moisture_percentage { rc := 0, raw := 900 } = .ok 0 ∧
    read_moisture_percentage { rc := 0, raw := 100 } = .ok 100 ∧
    read_moisture_percentage { rc := 0, raw := 500 } = .ok 70 :=
  ⟨(read_moisture_percentage_spec 900 (by decide)).1 (by decide),
   (read_moisture_percentage_spec 100 (by decide)).2.1 (by decide),
   (read_moisture_percentage_spec 500 (by decide)).2.2.1 (by decide) (by decide)⟩

/-! ## The pump/valve sequencer -/

theorem start_irrigation_of_irrigating (now : ℕ) (s : State) (h : s.is_irrigating = true) :
    start_irrigation now s = s := by
  simp [start_irrigation, h]

theorem stop_irrigation_of_idle (tickMs now : ℕ) (s : State) (h : s.is_irrigating = false) :
    stop_irrigation tickMs now s = s := by
  simp [stop_irrigation, h]

theorem start_irrigation_of_idle (now : ℕ) (s : State) (h : s.is_irrigating = false) :
    (start_irrigation now s).hw
        = s.hw ++ [HwCmd.gpio PUMP_PIN true, HwCmd.delay 2000, HwCmd.gpio SOLENOID_PIN true] ∧
    (start_irrigation now s).is_irrigating = true ∧
    (start_irrigation now s).irrigation_start_time = now ∧
    (start_irrigation now s).pump = true ∧ (start_irrigation now s).valve = true := by
  simp [start_irrigation, h, gpio_set_level, vTaskDelay, ESP_LOGI, PUMP_PIN, SOLENOID_PIN]

theorem stop_irrigation_of_irrigating (tickMs now : ℕ) (s : State)
    (h : s.is_irrigating = true) :
    (stop_irrigation tickMs now s).hw
        = s.hw ++ [HwCmd.gpio SOLENOID_PIN false, HwCmd.delay 1000, HwCmd.gpio PUMP_PIN false] ∧
    (stop_irrigation tickMs now s).is_irrigating = false ∧
    (stop_irrigation tickMs now s).irrigation_start_time = s.irrigation_start_time ∧
    (stop_irrigation tickMs now s).pump = false ∧ (stop_irrigation tickMs now s).valve = false := by
  simp [stop_irrigation, h, gpio_set_level, vTaskDelay, ESP_LOGI, PUMP_PIN, SOLENOID_PIN]

/-- C5. A `start_irrigation()` call made while idle issues exactly pump ON, wait 2000 ms,
valve ON, in that order; a `stop_irrigation()` call made while irrigating issues exactly
valve OFF, wait 1000 ms, pump OFF, in that order. -/
theorem start_stop_sequences (tickMs now : ℕ) (s : State) :
    (s.is_irrigating = false →
      (start_irrigation now s).hw
        = s.hw ++ [HwCmd.gpio PUMP_PIN true, HwCmd.delay 2000, HwCmd.gpio SOLENOID_PIN true]) ∧
    (s.is_irrigating = true →
      (stop_irrigation tickMs now s).hw
        = s.hw ++ [HwCmd.gpio SOLENOID_PIN false, HwCmd.delay 1000, HwCmd.gpio PUMP_PIN false]) :=
  ⟨fun h => (start_irrigation_of_idle now s h).1,
   fun h => (stop_irrigation_of_irrigating tickMs now s h).1⟩

/-- The commands of a start from power-on, and of a stop after it. -/
theorem start_stop_sequences_witness :
    (start_irrigation 7 power_on).hw
      = [HwCmd.gpio 15 true, HwCmd.delay 2000, HwCmd.gpio 14 true] ∧
    (stop_irrigation 10 9 (start_irrigation 7 power_on)).hw
      = [HwCmd.gpio 15 true, HwCmd.delay 2000, HwCmd.gpio 14 true,
         HwCmd.gpio 14 false, HwCmd.delay 1000, HwCmd.gpio 15 false] :=
  ⟨(start_stop_sequences 10 7 power_on).1 rfl,
   (start_stop_sequences 10 9 (start_irrigation 7 power_on)).2 rfl⟩

/-- C7. A `start_irrigation()` call while already irrigating changes nothing (no command, no
delay, no state change), so two starts in succession from idle end in the state of a single
start, having issued one pump-on, one delay and one valve-on; symmetrically for
`stop_irrigation()` while idle and for two stops in succession from irrigating. -/
theorem start_stop_idempotent (tickMs n₁ n₂ : ℕ) (s : State) :
    (s.is_irrigating = true → start_irrigation n₁ s = s) ∧
    (s.is_irrigating = false →
      start_irrigation n₂ (start_irrigation n₁ s) = start_irrigation n₁ s ∧
      (start_irrigation n₂ (start_irrigation n₁ s)).hw
        = s.hw ++ [HwCmd.gpio PUMP_PIN true, HwCmd.delay 2000, HwCmd.gpio SOLENOID_PIN true]) ∧
    (s.is_irrigating = false → stop_irrigation tickMs n₁ s = s) ∧
    (s.is_irrigating = true →
      stop_irrigation tickMs n₂ (stop_irrigation tickMs n₁ s) = stop_irrigation tickMs n₁ s ∧
      (stop_irrigation tickMs n₂ (stop_irrigation tickMs n₁ s)).hw
        = s.hw ++ [HwCmd.gpio SOLENOID_PIN false, HwCmd.delay 1000, HwCmd.gpio PUMP_PIN false]) := by
  refine ⟨start_irrigation_of_irrigating n₁ s, ?_, stop_irrigation_of_idle tickMs n₁ s, ?_⟩
  · intro h
    have hs := start_irrigation_of_idle n₁ s h
    have e := start_irrigation_of_irrigating n₂ _ hs.2.1
    exact ⟨e, by rw [e]; exact hs.1⟩
  · intro h
    have hs := stop_irrigation_of_irrigating tickMs n₁ s h
    have e := stop_irrigation_of_idle tickMs n₂ _ hs.2.1
    exact ⟨e, by rw [e]; exact hs.1⟩

/-- Two starts from power-on equal one start; a stop at power-on changes nothing. -/
theorem start_stop_idempotent_witness :
    start_irrigation 8 (start_irrigation 7 power_on) = start_irrigation 7 power_on ∧
    (start_irrigation 8 (start_irrigation 7 power_on)).hw
      = [HwCmd.gpio 15 true, HwCmd.delay 2000, HwCmd.gpio 14 true] ∧
    stop_irrigation 10 9 power_on = power_on :=
  ⟨((start_stop_idempotent 10 7 8 power_on).2.1 rfl).1,
   ((start_stop_idempotent 10 7 8 power_on).2.1 rfl).2,
   (start_stop_idempotent 10 9 9 power_on).2.2.1 rfl⟩

/-! ### Invariant of the sequencer -/

theorem precededBy_nil (x a b : HwCmd) : PrecededBy x a b [] := by
  intro pre post h
  have hlen := congrArg List.length h
  simp only [List.length_nil, List.length_append, List.length_cons] at hlen
  omega

theorem precededBy_append_of_not_mem {x a b : HwCmd} {l blk : List HwCmd}
    (hl : PrecededBy x a b l) (hx : x ∉ blk) : PrecededBy x a b (l ++ blk) := by
  intro pre post h
  rcases List.append_eq_append_iff.mp h with ⟨m, hm, hb⟩ | ⟨m, hm, hb⟩
  · exact absurd (by rw [hb]; simp) hx
  · cases m with
    | nil =>
      simp only [List.nil_append] at hb
      exact absurd (by rw [← hb]; simp) hx
    | cons y ys =>
      simp only [List.cons_append, List.cons.injEq] at hb
      obtain ⟨rfl, -⟩ := hb
      exact hl pre ys hm

theorem precededBy_append_block {x a b : HwCmd} {l : List HwCmd}
    (hl : PrecededBy x a b l) (hxa : x ≠ a) (hxb : x ≠ b) :
    PrecededBy x a b (l ++ [a, b, x]) := by
  intro pre post h
  rcases List.append_eq_append_iff.mp h with ⟨m, hm, hb⟩ | ⟨m, hm, hb⟩
  · -- the occurrence lies in the appended block
    match m, hb with
    | [], hb =>
      simp only [List.nil_append, List.cons.injEq] at hb
      exact absurd hb.1.symm hxa
    | [y], hb =>
      simp only [List.cons_append, List.nil_append, List.cons.injEq] at hb
      exact absurd hb.2.1.symm hxb
    | [y, z], hb =>
      simp only [List.cons_append, List.nil_append, List.cons.injEq] at hb
      refine ⟨l, ?_⟩
      rw [hm, hb.1, hb.2.1]
    | y :: z :: w :: rest, hb =>
      simp only [List.cons_append, List.cons.injEq] at hb
      have := hb.2.2.2
      simp at this
  · cases m with
    | nil =>
      simp only [List.nil_append, List.cons.injEq] at hb
      exact absurd hb.1 hxa
    | cons y ys =>
      simp only [List.cons_append, List.cons.injEq] at hb
      obtain ⟨rfl, -⟩ := hb
      exact hl pre ys hm

theorem seqInv_power_on : SeqInv power_on :=
  ⟨rfl, rfl, precededBy_nil _ _ _, precededBy_nil _ _ _⟩

theorem seqInv_start (now : ℕ) (s : State) (h : SeqInv s) : SeqInv (start_irrigation now s) := by
  cases hi : s.is_irrigating with
  | true => rw [start_irrigation_of_irrigating now s hi]; exact h
  | false =>
    obtain ⟨hhw, hir, -, hp, hv⟩ := start_irrigation_of_idle now s hi
    refine ⟨by rw [hp, hir], by rw [hv, hir], ?_, ?_⟩
    · rw [hhw]
      exact precededBy_append_block h.2.2.1 (by simp [PUMP_PIN, SOLENOID_PIN]) (by simp)
    · rw [hhw]
      exact precededBy_append_of_not_mem h.2.2.2 (by simp [PUMP_PIN, SOLENOID_PIN])

theorem seqInv_stop (tickMs now : ℕ) (s : State) (h : SeqInv s) :
    SeqInv (stop_irrigation tickMs now s) := by
  cases hi : s.is_irrigating with
  | false => rw [stop_irrigation_of_idle tickMs now s hi]; exact h
  | true =>
    obtain ⟨hhw, hir, -, hp, hv⟩ := stop_irrigation_of_irrigating tickMs now s hi
    refine ⟨by rw [hp, hir], by rw [hv, hir], ?_, ?_⟩
    · rw [hhw]
      exact precededBy_append_of_not_mem h.2.2.1 (by simp [PUMP_PIN, SOLENOID_PIN])
    · rw [hhw]
      exact precededBy_append_block h.2.2.2 (by simp [PUMP_PIN, SOLENOID_PIN]) (by simp)

theorem seqInv_runCalls (tickMs : ℕ) (calls : List Call) (s : State) (h : SeqInv s) :
    SeqInv (runCalls tickMs calls s) := by
  induction calls generalizing s with
  | nil => exact h
  | cons c cs ih =>
    simp only [runCalls, List.foldl_cons]
    apply ih
    cases c with
    | start now => exact seqInv_start now s h
    | stop now => exact seqInv_stop tickMs now s h

/-- C6. After every finite sequence of `start_irrigation()` / `stop_irrigation()` calls from
the power-on state, the valve output is on only if `is_irrigating` is true and the pump
output is on; and in the commands issued, every valve-ON is immediately preceded by pump-ON
and the 2000 ms delay, every pump-OFF is immediately preceded by valve-OFF and the 1000 ms
delay (so no pump-OFF, respectively valve-ON, lies in between). -/
theorem sequencer_invariant (tickMs : ℕ) (calls : List Call) :
    ((runCalls tickMs calls power_on).valve = true →
      (runCalls tickMs calls power_on).is_irrigating = true ∧
      (runCalls tickMs calls power_on).pump = true) ∧
    (∀ pre post, (runCalls tickMs calls power_on).hw
        = pre ++ HwCmd.gpio SOLENOID_PIN true :: post →
      ∃ front, pre = front ++ [HwCmd.gpio PUMP_PIN true, HwCmd.delay 2000]) ∧
    (∀ pre post, (runCalls tickMs calls power_on).hw
        = pre ++ HwCmd.gpio PUMP_PIN false :: post →
      ∃ front, pre = front ++ [HwCmd.gpio SOLENOID_PIN false, HwCmd.delay 1000]) := by
  obtain ⟨hp, hv, h1, h2⟩ := seqInv_runCalls tickMs calls power_on seqInv_power_on
  refine ⟨fun h => ?_, h1, h2⟩
  rw [hv] at h
  exact ⟨h, by rw [hp, h]⟩

/-- After start, start, stop the valve-on command has pump-on and the delay before it. -/
theorem sequencer_invariant_witness :
    ∃ front, [HwCmd.gpio 15 true, HwCmd.delay 2000]
      = front ++ [HwCmd.gpio PUMP_PIN true, HwCmd.delay 2000] :=
  (sequencer_invariant 10 [Call.start 1, Call.start 2, Call.stop 3]).2.1
    [HwCmd.gpio 15 true, HwCmd.delay 2000]
    [HwCmd.gpio 14 false, HwCmd.delay 1000, HwCmd.gpio 15 false] (by decide)

/-! ## The control loop -/

theorem collect_sensor_data_ok (tickMs : ℕ) (adc : AdcRead) (now : ℕ) (s : State) (p : ℤ)
    (h : read_moisture_percentage adc = .ok p) :
    ∃ sensors, collect_sensor_data tickMs adc now s = .ok sensors ∧
      sensors.soil_moisture = p := by
  have hr := read_moisture_percentage_range adc p h
  refine ⟨_, by simp only [collect_sensor_data, h]; rfl, ?_⟩
  exact f32_intCast p (by rw [abs_lt]; constructor <;> omega)

theorem update_status_led_spec (s : State) :
    (update_status_led s).is_irrigating = s.is_irrigating ∧
    (update_status_led s).irrigation_start_time = s.irrigation_start_time ∧
    ∃ level, (update_status_led s).hw = s.hw ++ [HwCmd.gpio STATUS_LED level] := by
  cases hi : s.is_irrigating <;>
    simp [update_status_led, hi, gpio_set_level]

/-- The decision's `should_irrigate` as a function of an integer moisture percentage. -/
theorem should_irrigate_of_percentage (s : State) (sensors : sensor_data_t) (m : ℤ)
    (hm : sensors.soil_moisture = m) :
    (m < 40 → (make_irrigation_decision s sensors).should_irrigate = true) ∧
    (60 < m → (make_irrigation_decision s sensors).should_irrigate = false) ∧
    (40 ≤ m → m ≤ 60 → (make_irrigation_decision s sensors).should_irrigate = s.is_irrigating) := by
  refine ⟨fun h => ?_, fun h => ?_, fun h1 h2 => ?_⟩
  · rw [dry_branch_eq s sensors (by rw [hm]; exact_mod_cast h)]
  · rw [wet_branch_eq s sensors (by rw [hm]; exact_mod_cast h)]
  · rw [band_branch_eq s sensors (by rw [hm]; exact_mod_cast h1)
      (by rw [hm]; exact_mod_cast h2)]

/-- C8. With a moisture percentage `m` produced by the reader and any prior state `s`, one
iteration of the control loop issues the start sequence exactly when the decision says
irrigate and `s` is idle, the stop sequence exactly when the decision says do not irrigate
and `s` is irrigating, and otherwise no pump or valve command (only the LED command and the
5000 ms wait follow); afterwards `is_irrigating` is true if `m < 40`, false if `m > 60`, and
unchanged if `40 <= m <= 60`. -/
theorem app_main_iteration_actions (tickMs nowCollect nowAct : ℕ) (raw m : ℤ) (s : State)
    (hm : read_moisture_percentage { rc := 0, raw := raw } = .ok m) :
    ∃ sensors after level,
      collect_sensor_data tickMs { rc := 0, raw := raw } nowCollect s = .ok sensors ∧
      sensors.soil_moisture = m ∧
      app_main_iteration tickMs { rc := 0, raw := raw } nowCollect nowAct s = .ok after ∧
      after.hw = s.hw ++
        (if (make_irrigation_decision s sensors).should_irrigate = true ∧ s.is_irrigating = false
          then [HwCmd.gpio PUMP_PIN true, HwCmd.delay 2000, HwCmd.gpio SOLENOID_PIN true]
         else if (make_irrigation_decision s sensors).should_irrigate = false ∧
            s.is_irrigating = true
          then [HwCmd.gpio SOLENOID_PIN false, HwCmd.delay 1000, HwCmd.gpio PUMP_PIN false]
         else []) ++ [HwCmd.gpio STATUS_LED level, HwCmd.delay 5000] ∧
      (m < 40 → after.is_irrigating = true) ∧
      (60 < m → after.is_irrigating = false) ∧
      (40 ≤ m → m ≤ 60 → after.is_irrigating = s.is_irrigating) := by
  obtain ⟨sensors, hc, hs⟩ := collect_sensor_data_ok tickMs _ nowCollect s m hm
  have hdec := should_irrigate_of_percentage s sensors m hs
  -- the state after the status line has been logged
  set s₀ := ESP_LOGI (.status sensors.soil_moisture
    (make_irrigation_decision s sensors).should_irrigate
    (make_irrigation_decision s sensors).confidence) s with hs₀
  have h0i : s₀.is_irrigating = s.is_irrigating := rfl
  have h0h : s₀.hw = s.hw := rfl
  -- the state after the start/stop dispatch
  set s₁ := (if ((make_irrigation_decision s sensors).should_irrigate && !s₀.is_irrigating) = true
      then start_irrigation nowAct s₀
      else if (!(make_irrigation_decision s sensors).should_irrigate && s₀.is_irrigating) = true
        then stop_irrigation tickMs nowAct s₀
      else s₀) with hs₁
  have hiter : app_main_iteration tickMs { rc := 0, raw := raw } nowCollect nowAct s
      = .ok (vTaskDelay 5000 (update_status_led s₁)) := by
    simp only [app_main_iteration, hc]
  obtain ⟨hli, -, level, hlh⟩ := update_status_led_spec s₁
  have key : s₁.is_irrigating = (make_irrigation_decision s sensors).should_irrigate ∧
      s₁.hw = s.hw ++
        (if (make_irrigation_decision s sensors).should_irrigate = true ∧ s.is_irrigating = false
          then [HwCmd.gpio PUMP_PIN true, HwCmd.delay 2000, HwCmd.gpio SOLENOID_PIN true]
         else if (make_irrigation_decision s sensors).should_irrigate = false ∧
            s.is_irrigating = true
          then [HwCmd.gpio SOLENOID_PIN false, HwCmd.delay 1000, HwCmd.gpio PUMP_PIN false]
         else []) := by
    cases hd : (make_irrigation_decision s sensors).should_irrigate <;>
      cases hi : s.is_irrigating
    · simp [hs₁, hd, h0i, hi, h0h]
    · have hst := stop_irrigation_of_irrigating tickMs nowAct s₀ (h0i.trans hi)
      simp [hs₁, hd, h0i, hi, hst.1, hst.2.1, h0h]
    · have hst := start_irrigation_of_idle nowAct s₀ (h0i.trans hi)
      simp [hs₁, hd, h0i, hi, hst.1, hst.2.1, h0h]
    · simp [hs₁, hd, h0i, hi, h0h]
  refine ⟨sensors, _, level, hc, hs, hiter, ?_, ?_, ?_, ?_⟩
  · show (update_status_led s₁).hw ++ [HwCmd.delay 5000] = _
    rw [hlh, key.2]; simp
  · intro h
    show (update_status_led s₁).is_irrigating = true
    rw [hli, key.1]; exact hdec.1 h
  · intro h
    show (update_status_led s₁).is_irrigating = false
    rw [hli, key.1]; exact hdec.2.1 h
  · intro h1 h2
    show (update_status_led s₁).is_irrigating = s.is_irrigating
    rw [hli, key.1]; exact hdec.2.2 h1 h2

/-- Moisture 20 (raw 715) from idle ends irrigating; moisture 80 (raw 460) while irrigating
ends idle. -/
theorem app_main_iteration_actions_witness :
    (∃ after, app_main_iteration 10 { rc := 0, raw := 715 } 0 1 power_on = .ok after ∧
      after.is_irrigating = true) ∧
    (∃ after, app_main_iteration 10 { rc := 0, raw := 460 } 8 9 (start_irrigation 7 power_on)
        = .ok after ∧ after.is_irrigating = false) := by
  obtain ⟨_, after, _, _, _, h, _, h1, _, _⟩ :=
    app_main_iteration_actions 10 0 1 715 20 power_on
      (by rw [read_moisture_percentage_ok]; congr 1)
  obtain ⟨_, after2, _, _, _, h2, _, _, h3, _⟩ :=
    app_main_iteration_actions 10 8 9 460 80 (start_irrigation 7 power_on)
      (by rw [read_moisture_percentage_ok]; congr 1)
  exact ⟨⟨after, h, h1 (by norm_num)⟩, ⟨after2, h2, h3 (by norm_num)⟩⟩

/-- C9. The function `read_moisture_percentage` aborts if and only if the ADC read reports
an error; in that case the loop iteration aborts at once: no snapshot is produced, and the
state at the abort is the state before the iteration (no pump, valve or LED command issued,
`is_irrigating` and `irrigation_start_time` unchanged). -/
theorem read_failure_aborts (tickMs nowCollect nowAct : ℕ) (adc : AdcRead) (s : State) :
    ((∃ e, read_moisture_percentage adc = .error e) ↔ adc.rc ≠ 0) ∧
    (adc.rc ≠ 0 →
      read_moisture_percentage adc = .error adc.rc ∧
      collect_sensor_data tickMs adc nowCollect s = .error adc.rc ∧
      app_main_iteration tickMs adc nowCollect nowAct s
        = .error { rc := adc.rc, state := s }) := by
  have hfail : adc.rc ≠ 0 → read_moisture_percentage adc = .error adc.rc := by
    intro h
    simp [read_moisture_percentage, ESP_ERROR_CHECK, h]
  refine ⟨⟨?_, fun h => ⟨_, hfail h⟩⟩, fun h => ⟨hfail h, ?_, ?_⟩⟩
  · rintro ⟨e, he⟩ h0
    simp [read_moisture_percentage, ESP_ERROR_CHECK, h0] at he
  · simp only [collect_sensor_data, hfail h]
  · simp only [app_main_iteration, collect_sensor_data, hfail h]

/-- A read failing with code 259 while irrigating aborts the iteration in the same state. -/
theorem read_failure_aborts_witness :
    app_main_iteration 10 { rc := 259, raw := 0 } 0 1 (start_irrigation 7 power_on)
      = .error { rc := 259, state := start_irrigation 7 power_on } :=
  ((read_failure_aborts 10 0 1 { rc := 259, raw := 0 } (start_irrigation 7 power_on)).2
    (by decide)).2.2

theorem lit_three_tenths_lt_one : lit (3 / 10) < 1 := by
  rw [lit_three_tenths]; norm_num

/-- C10. For every ADC reading and every state, the decision computed from the snapshot that
`collect_sensor_data` builds has `urgency_score` and `confidence` in `[0, 1]`, and the
urgency is 1.0 exactly when the moisture percentage is 0. -/
theorem decision_scores_in_unit_interval (tickMs : ℕ) (adc : AdcRead) (now : ℕ) (s t : State)
    (sensors : sensor_data_t) (h : collect_sensor_data tickMs adc now s = .ok sensors) :
    0 ≤ (make_irrigation_decision t sensors).urgency_score ∧
    (make_irrigation_decision t sensors).urgency_score ≤ 1 ∧
    0 ≤ (make_irrigation_decision t sensors).confidence ∧
    (make_irrigation_decision t sensors).confidence ≤ 1 ∧
    ((make_irrigation_decision t sensors).urgency_score = 1 ↔
      read_moisture_percentage adc = .ok 0) := by
  -- the percentage behind the snapshot
  obtain ⟨p, hp⟩ : ∃ p, read_moisture_percentage adc = .ok p := by
    cases hr : read_moisture_percentage adc with
    | error e => simp [collect_sensor_data, hr] at h
    | ok p => exact ⟨p, rfl⟩
  obtain ⟨sensors2, hc, hs⟩ := collect_sensor_data_ok tickMs adc now s p hp
  have hsame : sensors2 = sensors := by
    rw [hc] at h; exact Except.ok.inj h
  subst hsame
  have hr := read_moisture_percentage_range adc p hp
  have hp0 : read_moisture_percentage adc = .ok 0 ↔ p = 0 := by
    rw [hp]
    constructor
    · intro e; exact Except.ok.inj e
    · intro e; rw [e]
  rw [hp0]
  rcases lt_or_le p 40 with hlt | hge
  · -- dry branch
    obtain ⟨k, rfl⟩ := Int.eq_ofNat_of_zero_le hr.1
    have hk : k < 40 := by exact_mod_cast hlt
    have hsk : sensors2.soil_moisture = (k : ℚ) := by rw [hs]; simp
    have hu : (make_irrigation_decision t sensors2).urgency_score = f32 ((40 - (k : ℚ)) / 40) :=
      urgency_of_percentage t sensors2 k hsk hk
    have hcf : (make_irrigation_decision t sensors2).confidence = lit (85 / 100) := by
      rw [dry_branch_eq t sensors2 (by rw [hsk]; exact_mod_cast hk)]
    have hk2 : (k : ℚ) ≤ 39 := by exact_mod_cast Nat.lt_succ_iff.mp hk
    have hk0 : (0 : ℚ) ≤ k := by positivity
    have hq0 : (0 : ℚ) ≤ (40 - (k : ℚ)) / 40 := by
      apply div_nonneg _ (by norm_num); linarith
    have hq1 : (40 - (k : ℚ)) / 40 ≤ 1 := by
      rw [div_le_one (by norm_num)]; linarith
    have hle : f32 ((40 - (k : ℚ)) / 40) ≤ 1 := by
      have hm := f32_mono hq0 hq1
      rwa [f32_one] at hm
    have hc85 := lit_mem_unit (q := 85 / 100) (by norm_num) (by norm_num)
    refine ⟨by rw [hu]; exact f32_nonneg hq0, by rw [hu]; exact hle,
      by rw [hcf]; exact hc85.1, by rw [hcf]; exact hc85.2, ?_⟩
    rw [hu]
    constructor
    · intro h1
      by_contra hne
      have hk1 : (1 : ℚ) ≤ k := by
        have : 1 ≤ k := by
          rcases Nat.eq_zero_or_pos k with h0 | h0
          · exact absurd (by rw [h0]; rfl) hne
          · exact h0
        exact_mod_cast this
      have hb := (urgency_bounds k hk).2
      rw [h1] at hb
      have : (40 - (k : ℚ)) / 40 ≤ 39 / 40 := by
        apply div_le_div_of_nonneg_right _ (by norm_num); linarith
      have h3 : (40 - (k : ℚ)) / 40 * (1 + 1 / 16777216) ≤ 39 / 40 * (1 + 1 / 16777216) := by
        apply mul_le_mul_of_nonneg_right this (by norm_num)
      norm_num at h3 hb
      linarith
    · intro h0
      have : k = 0 := by exact_mod_cast h0
      subst this
      norm_num [f32_one]
  · have hne : p ≠ 0 := by omega
    rcases lt_or_le 60 p with hwet | hband
    · have hd := wet_branch_eq t sensors2 (by rw [hs]; exact_mod_cast hwet)
      have hc90 := lit_mem_unit (q := 90 / 100) (by norm_num) (by norm_num)
      rw [hd]
      refine ⟨le_refl _, by norm_num, hc90.1, hc90.2, ?_⟩
      constructor
      · intro h1; norm_num at h1
      · intro h0; exact absurd h0 hne
    · have hd := band_branch_eq t sensors2 (by rw [hs]; exact_mod_cast hge)
        (by rw [hs]; exact_mod_cast hband)
      have hc70 := lit_mem_unit (q := 70 / 100) (by norm_num) (by norm_num)
      have hu30 := lit_mem_unit (q := 3 / 10) (by norm_num) (by norm_num)
      rw [hd]
      refine ⟨hu30.1, hu30.2, hc70.1, hc70.2, ?_⟩
      constructor
      · intro h1; exact absurd h1 (ne_of_lt lit_three_tenths_lt_one)
      · intro h0; exact absurd h0 hne

/-- A raw reading of 800 (0% moisture) yields urgency 1.0. -/
theorem decision_scores_in_unit_interval_witness :
    ∃ sensors, collect_sensor_data 10 { rc := 0, raw := 800 } 0 power_on = .ok sensors ∧
      (make_irrigation_decision power_on sensors).urgency_score = 1 := by
  obtain ⟨sensors, hc, -⟩ := collect_sensor_data_ok 10 { rc := 0, raw := 800 } 0 power_on 0
    (by rw [read_moisture_percentage_ok]; congr 1)
  exact ⟨sensors, hc,
    (decision_scores_in_unit_interval 10 { rc := 0, raw := 800 } 0 power_on power_on sensors
      hc).2.2.2.2.2 (by rw [read_moisture_percentage_ok]; congr 1)⟩

end SaharaSprout
